import Mathlib

/-!
Verification development for a water-quality monitoring service
(FastAPI + SQLAlchemy + APScheduler).  The embedding below translates
the data model (`app/models.py`), the CRUD layer (`app/crud.py`), the
classifier adapter (`app/ml_service.py`), the daily scheduler job
(`app/scheduler_service.py`) and the manual-trigger endpoint
(`app/main.py`) into executable Lean definitions.

Modelling conventions:
- Python `datetime` values are microseconds since the epoch (`Int`);
  a calendar date is its day index (`Int`).  `datetime.combine(d,
  datetime.min.time())` is `startOfDay d`; `datetime.combine(d,
  datetime.max.time())` is `endOfDay d` (23:59:59.999999, the maximal
  microsecond-resolution instant of the day).
- Python floats are modelled as rationals; SQL `AVG` is sum divided by
  count over the filtered rows.
- The two wall clocks the source consults (`datetime.utcnow` for
  stored timestamps and column defaults, `date.today()` for the local
  calendar date) are carried explicitly in a `Clock` record holding
  the UTC instant and the local-time offset.
- The SQLite database is a record of row lists; the `unique=True`
  declaration on the `date` column of `daily_predictions` is carried
  as an explicit column descriptor, and the storage layer consults it
  when an insert is committed (a violating insert raises, faithful to
  the UNIQUE constraint).
- Fallible Python code (raising exceptions) is embedded with `Except`;
  the daily job's `try/except` wrapper catches everything, so the job
  itself is a total function returning an outcome.
-/

/-- Microseconds in one day. -/
def microsPerDay : Int := 86400000000

/-- The two wall clocks the source reads: `utcNow` is the instant
returned by `datetime.utcnow()`, and `localOffset` is the offset (in
microseconds) the local timezone adds on top of UTC, so that
`date.today()` reads `utcNow + localOffset`. -/
structure Clock where
  utcNow : Int
  localOffset : Int
deriving DecidableEq

/-- Python `date.today()`: the calendar date of the local clock. -/
def date_today (c : Clock) : Int :=
  (c.utcNow + c.localOffset).fdiv microsPerDay

/-- The calendar date of the UTC clock (the reference stored
timestamps are anchored to). -/
def utc_today (c : Clock) : Int :=
  c.utcNow.fdiv microsPerDay

/-- First microsecond of day `d`: `datetime.combine(d, datetime.min.time())`. -/
def startOfDay (d : Int) : Int := d * microsPerDay

/-- Last microsecond of day `d`: `datetime.combine(d, datetime.max.time())`,
i.e. 23:59:59.999999. -/
def endOfDay (d : Int) : Int := d * microsPerDay + (microsPerDay - 1)

/-- Row of the `sensor_readings` table (`app/models.py`, class
`SensorReading`). -/
structure SensorReading where
  id : Int
  ph : ℚ
  tds : ℚ
  turbidity : ℚ
  temperature : ℚ
  timestamp : Int
deriving DecidableEq

/-- Row of the `daily_predictions` table (`app/models.py`, class
`DailyPrediction`). -/
structure DailyPrediction where
  id : Int
  date : Int
  avg_ph : ℚ
  avg_tds : ℚ
  avg_turbidity : ℚ
  avg_temperature : ℚ
  prediction : String
  prediction_confidence : Option ℚ
  reading_count : Nat
  created_at : Int
deriving DecidableEq

/-- Constraint flags of a SQLAlchemy `Column(...)` declaration. -/
structure ColumnSpec where
  unique : Bool
  nullable : Bool
  indexed : Bool
deriving DecidableEq

/-- The declaration `date = Column(Date, unique=True, nullable=False,
index=True)` on `DailyPrediction` in `app/models.py`: the storage
layer enforces uniqueness of the `date` column. -/
def dailyPrediction_date_column : ColumnSpec :=
  { unique := true, nullable := false, indexed := true }

/-- Modelled from the spec: the ingestion payload schema
(`SensorReadingCreate` lives in `app/schemas.py`, which is not among
the provided sources).  Per the external-interface section of the
spec, the ingestion boundary "accepts a record containing four
real-valued sensor parameters; assigns identity and timestamp if
absent", so the payload carries the four parameters and an optional
client timestamp. -/
structure SensorReadingCreate where
  ph : ℚ
  tds : ℚ
  turbidity : ℚ
  temperature : ℚ
  timestamp : Option Int
deriving DecidableEq

/-- Dictionary returned by `compute_daily_aggregates` in `app/crud.py`. -/
structure Aggregates where
  avg_ph : ℚ
  avg_tds : ℚ
  avg_turbidity : ℚ
  avg_temperature : ℚ
  reading_count : Nat
deriving DecidableEq

/-- The SQLite database: the two tables plus the identity counters the
store assigns (`id` primary keys). -/
structure DB where
  readings : List SensorReading
  predictions : List DailyPrediction
  nextReadingId : Int
  nextPredId : Int
deriving DecidableEq

/-- Timestamp window membership used by `get_readings_for_date` and
`compute_daily_aggregates`: `start_datetime <= timestamp <= end_datetime`
(both comparisons inclusive). -/
def inWindow (d : Int) (r : SensorReading) : Bool :=
  decide (startOfDay d ≤ r.timestamp) && decide (r.timestamp ≤ endOfDay d)

/-- The rows the aggregation query of `compute_daily_aggregates`
ranges over: readings whose timestamp lies in the inclusive window of
the target date. -/
def readingsInWindow (readings : List SensorReading) (d : Int) : List SensorReading :=
  readings.filter (fun r => inWindow d r)

/-- `crud.create_sensor_reading`: builds a `SensorReading` from only
the four parameter fields of the payload; the `id` and the `timestamp`
are filled by the store (primary-key counter and the
`default=datetime.utcnow` column default applied at insert time). -/
def create_sensor_reading (db : DB) (reading : SensorReadingCreate) (c : Clock) :
    DB × SensorReading :=
  let db_reading : SensorReading :=
    { id := db.nextReadingId
      ph := reading.ph
      tds := reading.tds
      turbidity := reading.turbidity
      temperature := reading.temperature
      timestamp := c.utcNow }
  ({ db with
      readings := db.readings ++ [db_reading]
      nextReadingId := db.nextReadingId + 1 },
   db_reading)

/-- `crud.compute_daily_aggregates`: SQL `AVG` (sum over count) of
each parameter and `COUNT` over the readings in the date window;
`None` when the count is zero. -/
def compute_daily_aggregates (db : DB) (target_date : Int) : Option Aggregates :=
  if (readingsInWindow db.readings target_date).length = 0 then
    none
  else
    some
      { avg_ph := ((readingsInWindow db.readings target_date).map (fun r => r.ph)).sum /
          ((readingsInWindow db.readings target_date).length : ℚ)
        avg_tds := ((readingsInWindow db.readings target_date).map (fun r => r.tds)).sum /
          ((readingsInWindow db.readings target_date).length : ℚ)
        avg_turbidity := ((readingsInWindow db.readings target_date).map (fun r => r.turbidity)).sum /
          ((readingsInWindow db.readings target_date).length : ℚ)
        avg_temperature := ((readingsInWindow db.readings target_date).map (fun r => r.temperature)).sum /
          ((readingsInWindow db.readings target_date).length : ℚ)
        reading_count := (readingsInWindow db.readings target_date).length }

/-- Field assignments performed on the `existing` row in the update
branch of `crud.create_daily_prediction`: all aggregate fields, label,
confidence, the reading count (overwritten, not summed) and the
`created_at` stamp; `id` and `date` are untouched. -/
def updateFields (p : DailyPrediction) (a : Aggregates) (prediction : String)
    (confidence : Option ℚ) (now : Int) : DailyPrediction :=
  { p with
      avg_ph := a.avg_ph
      avg_tds := a.avg_tds
      avg_turbidity := a.avg_turbidity
      avg_temperature := a.avg_temperature
      prediction := prediction
      prediction_confidence := confidence
      reading_count := a.reading_count
      created_at := now }

/-- The fresh row built in the insert branch of
`crud.create_daily_prediction`; `created_at` comes from the
`default=datetime.utcnow` column default at insert time. -/
def newPrediction (idv : Int) (target_date : Int) (a : Aggregates)
    (prediction : String) (confidence : Option ℚ) (now : Int) : DailyPrediction :=
  { id := idv
    date := target_date
    avg_ph := a.avg_ph
    avg_tds := a.avg_tds
    avg_turbidity := a.avg_turbidity
    avg_temperature := a.avg_temperature
    prediction := prediction
    prediction_confidence := confidence
    reading_count := a.reading_count
    created_at := now }

/-- In-place mutation of the first row matching the date (the row the
ORM query `.filter(DailyPrediction.date == target_date).first()`
returned); the rest of the table is untouched. -/
def replaceFirstByDate : List DailyPrediction → Int →
    (DailyPrediction → DailyPrediction) → List DailyPrediction
  | [], _, _ => []
  | p :: rest, d, f =>
      if p.date = d then f p :: rest
      else p :: replaceFirstByDate rest d f

/-- Committing an INSERT into `daily_predictions`: the storage layer
checks the UNIQUE constraint declared on the `date` column
(`dailyPrediction_date_column`) and raises an integrity error instead
of inserting when a row with the same date already exists. -/
def insertPredChecked (ps : List DailyPrediction) (p : DailyPrediction) :
    Except String (List DailyPrediction) :=
  if dailyPrediction_date_column.unique && ps.any (fun q => q.date == p.date) then
    .error "UNIQUE constraint failed: daily_predictions.date"
  else
    .ok (ps ++ [p])

/-- `crud.create_daily_prediction`: look the date up; if a row exists,
update all its fields in place; otherwise insert a fresh row (the
commit enforcing the UNIQUE constraint on `date`). -/
def create_daily_prediction (db : DB) (target_date : Int) (aggregates : Aggregates)
    (prediction : String) (confidence : Option ℚ) (now : Int) :
    Except String (DB × DailyPrediction) :=
  match db.predictions.find? (fun p => p.date == target_date) with
  | some existing =>
      let ps := replaceFirstByDate db.predictions target_date
        (fun p => updateFields p aggregates prediction confidence now)
      .ok ({ db with predictions := ps },
           updateFields existing aggregates prediction confidence now)
  | none =>
      match insertPredChecked db.predictions
          (newPrediction db.nextPredId target_date aggregates prediction confidence now) with
      | .error e => .error e
      | .ok ps =>
          .ok ({ db with predictions := ps, nextPredId := db.nextPredId + 1 },
               newPrediction db.nextPredId target_date aggregates prediction confidence now)

/-- A write serialized by the `daily_predictions` storage layer:
either a committed INSERT of a fresh row or the committed UPDATE of
the first row carrying a given date.  Any interleaving of job runs
reaches the store as some sequence of these operations. -/
inductive PredStoreOp where
  | insertRow (p : DailyPrediction)
  | updateRow (d : Int) (a : Aggregates) (prediction : String)
      (confidence : Option ℚ) (now : Int)

/-- Effect of one serialized write on the `daily_predictions` table; a
constraint-violating insert leaves the table unchanged (the statement
raises and nothing is committed). -/
def applyPredStoreOp (ps : List DailyPrediction) : PredStoreOp → List DailyPrediction
  | .insertRow p =>
      match insertPredChecked ps p with
      | .error _ => ps
      | .ok ps2 => ps2
  | .updateRow d a prediction confidence now =>
      replaceFirstByDate ps d (fun q => updateFields q a prediction confidence now)

/-- The `date` column of the `daily_predictions` table, row by row. -/
def predDates (ps : List DailyPrediction) : List Int :=
  ps.map (fun p => p.date)

/-- The frozen classifier artifact loaded from disk (opaque to this
repository): its `predict` method returns an encoded class index and,
when the artifact exposes `predict_proba`, that method returns a
probability vector over the classes. -/
structure Artifact where
  predictEnc : ℚ → ℚ → ℚ → ℚ → Nat
  proba : Option (ℚ → ℚ → ℚ → ℚ → List ℚ)

/-- The loaded label encoder: `inverse_transform` maps an encoded
class index back to its string label via `classes_`. -/
structure LabelEncoder where
  classes : List String

/-- `app/ml_service.py`, class `MLService`: both artifacts are `None`
until `load_artifacts` ran. -/
structure MLService where
  model : Option Artifact
  label_encoder : Option LabelEncoder

/-- Python `max` over a list: raises on the empty list (hence `Option`
here; the raising case is handled at the call site). -/
def listMax : List ℚ → Option ℚ
  | [] => none
  | a :: rest =>
      match listMax rest with
      | none => some a
      | some b => some (max a b)

/-- `MLService.predict` (`app/ml_service.py`): raises when the
artifacts are not loaded; otherwise predicts the encoded class,
decodes the label, and — only when the model has `predict_proba` —
returns the maximum of the probability vector as the confidence,
leaving the confidence `None` otherwise. -/
def MLService.predict (svc : MLService) (ph tds turbidity temperature : ℚ) :
    Except String (String × Option ℚ) :=
  match svc.model, svc.label_encoder with
  | some m, some enc =>
      let prediction_encoded := m.predictEnc ph tds turbidity temperature
      match enc.classes.get? prediction_encoded with
      | none => .error "IndexError: classes index out of range"
      | some prediction_label =>
          match m.proba with
          | none => .ok (prediction_label, none)
          | some pf =>
              match listMax (pf ph tds turbidity temperature) with
              | none => .error "ValueError: max() arg is an empty sequence"
              | some confidence => .ok (prediction_label, some confidence)
  | _, _ => .error "ML artifacts not loaded. Call load_artifacts() first."

/-- Terminal state of one daily-job run: the `try` body ran to the end
(`completed`), returned early on missing data (`skippedNoData`), or an
exception was caught by the `except` clause (`failed`); the function
itself always returns normally. -/
inductive RunOutcome where
  | completed
  | skippedNoData
  | failed (msg : String)
deriving DecidableEq

/-- Body of `scheduler_service.run_daily_prediction` after the target
date has been computed: aggregate, classify, upsert; every raised
exception is caught and ends the run as `failed` with the store
unchanged by the raising step. -/
def run_for_date (svc : MLService) (db : DB) (target_date : Int) (now : Int) :
    DB × RunOutcome :=
  match compute_daily_aggregates db target_date with
  | none => (db, .skippedNoData)
  | some aggregates =>
      match MLService.predict svc aggregates.avg_ph aggregates.avg_tds
          aggregates.avg_turbidity aggregates.avg_temperature with
      | .error e => (db, .failed e)
      | .ok (prediction_label, confidence) =>
          match create_daily_prediction db target_date aggregates
              prediction_label confidence now with
          | .error e => (db, .failed e)
          | .ok (db2, _) => (db2, .completed)

/-- `scheduler_service.run_daily_prediction`: the target date is
yesterday of the local calendar (`date.today() - timedelta(days=1)`);
row timestamps and the `created_at` default use the UTC clock. -/
def run_daily_prediction (svc : MLService) (db : DB) (c : Clock) : DB × RunOutcome :=
  run_for_date svc db (date_today c - 1) c.utcNow

/-- HTTP response of the manual-trigger endpoint. -/
structure TriggerResponse where
  status : Nat
  message : String
deriving DecidableEq

/-- The fixed body returned by `POST /api/predictions/trigger`. -/
def daily_trigger_success_message : String :=
  "Daily prediction triggered successfully"

/-- `main.trigger_prediction_manually`: calls the very same
`run_daily_prediction` the scheduler runs (no date parameter exists on
the endpoint) and answers with a fixed success message; since
`run_daily_prediction` never raises, the endpoint's `except` branch is
dead and the response does not depend on the run's outcome. -/
def trigger_prediction_manually (svc : MLService) (db : DB) (c : Clock) :
    DB × TriggerResponse :=
  let r := run_daily_prediction svc db c
  (r.1, { status := 200, message := daily_trigger_success_message })

/-- Progress of one in-flight invocation of `run_daily_prediction`,
split at its database interactions: entered the function, computed
aggregates and classified, performed the upsert's lookup, finished.
The source takes no lock anywhere along this path. -/
inductive JobPhase where
  | notStarted
  | running
  | classified (a : Aggregates) (prediction : String) (confidence : Option ℚ)
  | lookedUp (a : Aggregates) (prediction : String) (confidence : Option ℚ)
      (found : Bool)
  | finished (outcome : RunOutcome)

/-- One atomic step of an in-flight run against the shared database:
entry (unguarded — nothing rejects or delays a second invocation),
aggregation + classification, the upsert's lookup, and the upsert's
write (update in place when the lookup found a row, otherwise a
constraint-checked insert whose integrity error is caught and ends the
run as failed). -/
def jobStep (svc : MLService) (c : Clock) (p : JobPhase) (db : DB) : JobPhase × DB :=
  match p with
  | .notStarted => (.running, db)
  | .running =>
      match compute_daily_aggregates db (date_today c - 1) with
      | none => (.finished .skippedNoData, db)
      | some a =>
          match MLService.predict svc a.avg_ph a.avg_tds a.avg_turbidity
              a.avg_temperature with
          | .error e => (.finished (.failed e), db)
          | .ok (prediction_label, confidence) =>
              (.classified a prediction_label confidence, db)
  | .classified a prediction confidence =>
      (.lookedUp a prediction confidence
        (db.predictions.any (fun q => q.date == date_today c - 1)), db)
  | .lookedUp a prediction confidence found =>
      if found then
        let ps := replaceFirstByDate db.predictions (date_today c - 1)
          (fun q => updateFields q a prediction confidence c.utcNow)
        (.finished .completed, { db with predictions := ps })
      else
        match insertPredChecked db.predictions
            (newPrediction db.nextPredId (date_today c - 1) a prediction confidence
              c.utcNow) with
        | .error e => (.finished (.failed e), db)
        | .ok ps =>
            (.finished .completed,
             { db with predictions := ps, nextPredId := db.nextPredId + 1 })
  | .finished o => (.finished o, db)

/-- Shared state of two concurrent triggers of the daily job: the
database and each invocation's progress. -/
structure Sys where
  db : DB
  j1 : JobPhase
  j2 : JobPhase

/-- Scheduling choice: which of the two in-flight invocations performs
its next atomic step. -/
inductive Move where
  | m1
  | m2
deriving DecidableEq

/-- One scheduler-chosen interleaving step of the two invocations. -/
def sysStep (svc : MLService) (c1 c2 : Clock) (s : Sys) (m : Move) : Sys :=
  match m with
  | .m1 =>
      let r := jobStep svc c1 s.j1 s.db
      { s with j1 := r.1, db := r.2 }
  | .m2 =>
      let r := jobStep svc c2 s.j2 s.db
      { s with j2 := r.1, db := r.2 }

/-- Run the two concurrent invocations under an arbitrary
interleaving schedule. -/
def exec (svc : MLService) (c1 c2 : Clock) (s : Sys) (moves : List Move) : Sys :=
  moves.foldl (sysStep svc c1 c2) s

/-! Concrete instances used to exercise the definitions: a host whose
local clock agrees with UTC (offset zero) on day 10, readings on day 9
(the job's default target), and small classifier artifacts. -/

/-- Offset-zero clock during day 10, so the default target date is day 9. -/
def wClock : Clock := { utcNow := 10 * microsPerDay + 1000, localOffset := 0 }

/-- A reading stored during day 9. -/
def wReading : SensorReading :=
  { id := 1, ph := 7, tds := 350, turbidity := 3, temperature := 25,
    timestamp := 9 * microsPerDay + 5 }

/-- A reading stored during day 8 (outside day 9's window). -/
def wReadingOut : SensorReading :=
  { id := 7, ph := 5, tds := 100, turbidity := 9, temperature := 20,
    timestamp := 8 * microsPerDay + 5 }

/-- Database holding exactly one day-9 reading and no predictions. -/
def wDB : DB :=
  { readings := [wReading], predictions := [], nextReadingId := 2, nextPredId := 1 }

/-- Aggregates of `wDB` over day 9. -/
def wAgg : Aggregates :=
  { avg_ph := 7, avg_tds := 350, avg_turbidity := 3, avg_temperature := 25,
    reading_count := 1 }

/-- Label encoder with two classes. -/
def wEnc : LabelEncoder := { classes := ["Safe", "Unsafe"] }

/-- Artifact exposing `predict_proba`; always predicts class 0 with
probability vector `[9/10, 1/10]`. -/
def wArt : Artifact :=
  { predictEnc := fun _ _ _ _ => 0,
    proba := some (fun _ _ _ _ => [(9 : ℚ)/10, 1/10]) }

/-- Artifact without `predict_proba`. -/
def wArtNP : Artifact := { predictEnc := fun _ _ _ _ => 0, proba := none }

/-- Service with both artifacts loaded. -/
def wSvc : MLService := { model := some wArt, label_encoder := some wEnc }

/-- Service whose artifact has no probability estimate. -/
def wSvcNP : MLService := { model := some wArtNP, label_encoder := some wEnc }

/-- Service on which `load_artifacts` never ran. -/
def wSvcNone : MLService := { model := none, label_encoder := none }

/-- An ingestion payload (client supplies no timestamp). -/
def wPayload : SensorReadingCreate :=
  { ph := 7, tds := 350, turbidity := 3, temperature := 25, timestamp := none }

/-- A stored daily prediction for day 9. -/
def wPredRow : DailyPrediction :=
  { id := 1, date := 9, avg_ph := 7, avg_tds := 350, avg_turbidity := 3,
    avg_temperature := 25, prediction := "Safe", prediction_confidence := some (9/10),
    reading_count := 1, created_at := 10 * microsPerDay }

/-- Database with no reading in day 9's window but an existing day-9
prediction record. -/
def wDBEmptyDay : DB :=
  { readings := [wReadingOut], predictions := [wPredRow],
    nextReadingId := 8, nextPredId := 2 }

/-- Database with three day-9 readings whose acidity values are
7.0, 7.2 and 7.4 (mean 7.2), other parameters fixed. -/
def wDBThree : DB :=
  { readings :=
      [{ wReading with id := 1, ph := 7, timestamp := 9 * microsPerDay + 5 },
       { wReading with id := 2, ph := 36/5, timestamp := 9 * microsPerDay + 6 },
       { wReading with id := 3, ph := 37/5, timestamp := 9 * microsPerDay + 7 }],
    predictions := [], nextReadingId := 4, nextPredId := 1 }

/-- A serialized write sequence containing a duplicate-date insert and
an update. -/
def wOps : List PredStoreOp :=
  [.insertRow wPredRow,
   .insertRow { wPredRow with id := 2, prediction := "Unsafe" },
   .updateRow 9 wAgg "Unsafe" none (10 * microsPerDay + 50)]

/-- Two triggers of the daily job sharing `wDB`, neither started yet. -/
def raceInit : Sys := { db := wDB, j1 := .notStarted, j2 := .notStarted }

/-- A full interleaving: the two invocations alternate through entry,
classification, lookup and write. -/
def raceMoves : List Move := [.m1, .m2, .m1, .m2, .m1, .m2, .m1, .m2]

/-- A clock whose local timezone sits two hours ahead of UTC, read at
23:30 UTC of day 19723: the local calendar has already turned to day
19724 while UTC is still on day 19723. -/
def c9clock : Clock :=
  { utcNow := 19723 * microsPerDay + 84600000000, localOffset := 7200000000 }

/-! Helper lemmas about the embedded operations. -/

theorem listMax_mem {l : List ℚ} {m : ℚ} : listMax l = some m → m ∈ l := by
  induction l with
  | nil => intro h; simp [listMax] at h
  | cons a rest ih =>
    intro h
    rw [listMax] at h
    cases hr : listMax rest with
    | none =>
      rw [hr] at h
      have h2 : some a = some m := h
      injection h2 with h2
      exact h2 ▸ List.mem_cons_self a rest
    | some b =>
      rw [hr] at h
      have h2 : some (max a b) = some m := h
      injection h2 with h2
      rcases max_choice a b with hc | hc
      · rw [hc] at h2
        exact h2 ▸ List.mem_cons_self a rest
      · rw [hc] at h2
        subst h2
        exact List.mem_cons_of_mem a (ih hr)

theorem listMax_cons_ne_none (a : ℚ) (rest : List ℚ) : listMax (a :: rest) ≠ none := by
  rw [listMax]
  cases listMax rest <;> simp

theorem listMax_eq_of_max {l : List ℚ} {m : ℚ} (hm : m ∈ l) (hb : ∀ q ∈ l, q ≤ m) :
    listMax l = some m := by
  induction l with
  | nil => cases hm
  | cons a rest ih =>
    rw [listMax]
    cases hr : listMax rest with
    | none =>
      have hrest : rest = [] := by
        cases rest with
        | nil => rfl
        | cons x xs => exact absurd hr (listMax_cons_ne_none x xs)
      subst hrest
      show some a = some m
      rcases List.mem_cons.mp hm with h | h
      · rw [h]
      · cases h
    | some b =>
      have hbm : b ≤ m := hb b (List.mem_cons_of_mem a (listMax_mem hr))
      show some (max a b) = some m
      rcases List.mem_cons.mp hm with h | h
      · rw [h] at hbm ⊢
        rw [max_eq_left hbm]
      · have h2 : listMax rest = some m := ih h (fun q hq => hb q (List.mem_cons_of_mem a hq))
        rw [hr] at h2
        injection h2 with h2
        rw [h2]
        rw [max_eq_right (hb a (List.mem_cons_self a rest))]

theorem predDates_replaceFirstByDate (ps : List DailyPrediction) (d : Int)
    (f : DailyPrediction → DailyPrediction) (hf : ∀ p, (f p).date = p.date) :
    predDates (replaceFirstByDate ps d f) = predDates ps := by
  induction ps with
  | nil => rfl
  | cons p rest ih =>
    rw [replaceFirstByDate]
    by_cases h : p.date = d
    · rw [if_pos h]
      simp [predDates, hf p]
    · rw [if_neg h]
      simp only [predDates, List.map_cons]
      rw [show List.map (fun p => p.date) (replaceFirstByDate rest d f) =
            List.map (fun p => p.date) rest from ih]

theorem not_mem_predDates_of_any_false {ps : List DailyPrediction} {d : Int}
    (h : ps.any (fun q => q.date == d) = false) : d ∉ predDates ps := by
  intro hmem
  rw [predDates, List.mem_map] at hmem
  obtain ⟨p, hp, hpd⟩ := hmem
  have : ps.any (fun q => q.date == d) = true :=
    List.any_eq_true.mpr ⟨p, hp, by simp [hpd]⟩
  rw [h] at this
  cases this

theorem insertPredChecked_ok {ps ps2 : List DailyPrediction} {p : DailyPrediction}
    (h : insertPredChecked ps p = .ok ps2) :
    ps.any (fun q => q.date == p.date) = false ∧ ps2 = ps ++ [p] := by
  unfold insertPredChecked at h
  split at h
  · cases h
  · next hc =>
    injection h with h
    refine ⟨?_, h.symm⟩
    simpa [dailyPrediction_date_column] using hc

theorem nodup_insertPredChecked {ps ps2 : List DailyPrediction} {p : DailyPrediction}
    (hn : (predDates ps).Nodup) (h : insertPredChecked ps p = .ok ps2) :
    (predDates ps2).Nodup := by
  obtain ⟨hany, hps⟩ := insertPredChecked_ok h
  subst hps
  have hnm : p.date ∉ predDates ps := not_mem_predDates_of_any_false hany
  have : predDates (ps ++ [p]) = predDates ps ++ [p.date] := by simp [predDates]
  rw [this, List.nodup_append]
  refine ⟨hn, List.nodup_singleton _, fun a ha hb => ?_⟩
  rw [List.mem_singleton] at hb
  exact hnm (hb ▸ ha)

theorem nodup_applyPredStoreOp {ps : List DailyPrediction} (op : PredStoreOp)
    (hn : (predDates ps).Nodup) : (predDates (applyPredStoreOp ps op)).Nodup := by
  cases op with
  | insertRow p =>
    rw [applyPredStoreOp]
    cases h : insertPredChecked ps p with
    | error e => exact hn
    | ok ps2 => exact nodup_insertPredChecked hn h
  | updateRow d a prediction confidence now =>
    rw [applyPredStoreOp]
    rw [predDates_replaceFirstByDate ps d
      (fun q => updateFields q a prediction confidence now) (fun p => rfl)]
    exact hn

theorem find?_replaceFirstByDate (d : Int) (f : DailyPrediction → DailyPrediction)
    (hf : ∀ p, (f p).date = p.date) :
    ∀ (ps : List DailyPrediction) (x : DailyPrediction),
      ps.find? (fun p => p.date == d) = some x →
      (replaceFirstByDate ps d f).find? (fun p => p.date == d) = some (f x) := by
  intro ps
  induction ps with
  | nil => intro x h; simp [List.find?] at h
  | cons p rest ih =>
    intro x h
    rw [replaceFirstByDate]
    by_cases hp : p.date = d
    · rw [if_pos hp]
      have hb : (fun q : DailyPrediction => q.date == d) p = true := by simp [hp]
      rw [List.find?_cons_of_pos rest hb] at h
      injection h with h
      subst h
      have hb2 : (fun q : DailyPrediction => q.date == d) (f p) = true := by
        simp [hf p, hp]
      exact List.find?_cons_of_pos rest hb2
    · rw [if_neg hp]
      have hb : ¬ (fun q : DailyPrediction => q.date == d) p = true := by simp [hp]
      rw [List.find?_cons_of_neg rest hb] at h
      rw [List.find?_cons_of_neg (replaceFirstByDate rest d f) hb]
      exact ih x h

theorem find?_append_left_none {ps qs : List DailyPrediction}
    {pr : DailyPrediction → Bool} (h : ps.find? pr = none) :
    (ps ++ qs).find? pr = qs.find? pr := by
  rw [List.find?_append, h, Option.none_or]

theorem compute_daily_aggregates_congr {db1 db2 : DB} (d : Int)
    (h : readingsInWindow db1.readings d = readingsInWindow db2.readings d) :
    compute_daily_aggregates db1 d = compute_daily_aggregates db2 d := by
  unfold compute_daily_aggregates
  rw [h]

theorem compute_daily_aggregates_count {db : DB} {d : Int} {a : Aggregates}
    (h : compute_daily_aggregates db d = some a) :
    a.reading_count = (readingsInWindow db.readings d).length := by
  unfold compute_daily_aggregates at h
  split at h
  · cases h
  · injection h with h
    rw [← h]


theorem create_daily_prediction_ok
    {db : DB} {d : Int} {a : Aggregates} {label : String} {conf : Option ℚ}
    {now : Int} {db2 : DB} {rec : DailyPrediction}
    (hn : (predDates db.predictions).Nodup)
    (h : create_daily_prediction db d a label conf now = .ok (db2, rec)) :
    db2.readings = db.readings ∧
    db2.predictions.find? (fun p => p.date == d) = some rec ∧
    (predDates db2.predictions).count d = 1 ∧
    rec.reading_count = a.reading_count ∧
    (∀ t : Int, updateFields rec a label conf t = { rec with created_at := t }) := by
  unfold create_daily_prediction at h
  split at h
  · rename_i existing hf
    injection h with hpair
    injection hpair with hdb2 hrec
    have hmem : d ∈ predDates db.predictions := by
      rw [predDates, List.mem_map]
      refine ⟨existing, List.mem_of_find?_eq_some hf, ?_⟩
      have h3 := List.find?_some hf
      simpa using h3
    refine ⟨?_, ?_, ?_, ?_, ?_⟩
    · rw [← hdb2]
    · rw [← hdb2, ← hrec]
      exact find?_replaceFirstByDate d (fun p => updateFields p a label conf now)
        (fun p => rfl) db.predictions existing hf
    · rw [← hdb2]
      show (predDates (replaceFirstByDate db.predictions d
          (fun p => updateFields p a label conf now))).count d = 1
      rw [predDates_replaceFirstByDate db.predictions d
        (fun p => updateFields p a label conf now) (fun p => rfl)]
      exact List.count_eq_one_of_mem hn hmem
    · rw [← hrec]
      rfl
    · intro t
      rw [← hrec]
      rfl
  · rename_i hf
    split at h
    · exact Except.noConfusion h
    · rename_i ps hins
      injection h with hpair
      injection hpair with hdb2 hrec
      obtain ⟨hany, hps⟩ := insertPredChecked_ok hins
      have hnm : d ∉ predDates db.predictions := by
        have h4 := not_mem_predDates_of_any_false hany
        simpa [newPrediction] using h4
      refine ⟨?_, ?_, ?_, ?_, ?_⟩
      · rw [← hdb2]
      · rw [← hdb2, ← hrec]
        show ps.find? (fun p => p.date == d) = _
        rw [hps, find?_append_left_none hf]
        exact List.find?_cons_of_pos [] (by simp [newPrediction])
      · rw [← hdb2]
        show (predDates ps).count d = 1
        rw [hps]
        have hsplit : predDates (db.predictions ++
            [newPrediction db.nextPredId d a label conf now]) =
            predDates db.predictions ++ [d] := by
          simp [predDates, newPrediction]
        rw [hsplit, List.count_append, List.count_eq_zero.mpr hnm]
        simp
      · rw [← hrec]
        rfl
      · intro t
        rw [← hrec]
        rfl

theorem run_for_date_completed
    {svc : MLService} {db : DB} {d now : Int} {db1 : DB}
    (h : run_for_date svc db d now = (db1, RunOutcome.completed)) :
    ∃ a label conf rec,
      compute_daily_aggregates db d = some a ∧
      MLService.predict svc a.avg_ph a.avg_tds a.avg_turbidity a.avg_temperature =
        .ok (label, conf) ∧
      create_daily_prediction db d a label conf now = .ok (db1, rec) := by
  unfold run_for_date at h
  split at h
  · injection h with h2 h3
    cases h3
  · rename_i a hagg
    split at h
    · injection h with h2 h3
      cases h3
    · rename_i label conf hpred
      split at h
      · injection h with h2 h3
        cases h3
      · rename_i dbA rec hcre
        injection h with h2 h3
        exact ⟨a, label, conf, rec, hagg, hpred, h2 ▸ hcre⟩

theorem jobStep_db_nodup (svc : MLService) (c : Clock) (p : JobPhase) (db : DB)
    (h : (predDates db.predictions).Nodup) :
    (predDates ((jobStep svc c p db).2).predictions).Nodup := by
  cases p with
  | notStarted => exact h
  | running =>
    simp only [jobStep]
    split
    · exact h
    · split
      · exact h
      · exact h
  | classified a prediction confidence => exact h
  | lookedUp a prediction confidence found =>
    simp only [jobStep]
    split
    · show (predDates (replaceFirstByDate db.predictions (date_today c - 1)
        (fun q => updateFields q a prediction confidence c.utcNow))).Nodup
      rw [predDates_replaceFirstByDate db.predictions (date_today c - 1)
        (fun q => updateFields q a prediction confidence c.utcNow) (fun p => rfl)]
      exact h
    · split
      · exact h
      · rename_i ps hins
        exact nodup_insertPredChecked h hins
  | finished o => exact h

theorem sysStep_db_nodup (svc : MLService) (c1 c2 : Clock) (s : Sys) (m : Move)
    (h : (predDates s.db.predictions).Nodup) :
    (predDates ((sysStep svc c1 c2 s m).db).predictions).Nodup := by
  cases m with
  | m1 => exact jobStep_db_nodup svc c1 s.j1 s.db h
  | m2 => exact jobStep_db_nodup svc c2 s.j2 s.db h

theorem exec_db_nodup (svc : MLService) (c1 c2 : Clock) :
    ∀ (moves : List Move) (s : Sys), (predDates s.db.predictions).Nodup →
      (predDates ((exec svc c1 c2 s moves).db).predictions).Nodup := by
  intro moves
  induction moves with
  | nil => intro s h; exact h
  | cons m ms ih =>
    intro s h
    show (predDates ((exec svc c1 c2 (sysStep svc c1 c2 s m) ms).db).predictions).Nodup
    exact ih (sysStep svc c1 c2 s m) (sysStep_db_nodup svc c1 c2 s m h)

/-! Claim theorems. -/

/-- C2: under any serialized sequence of daily-prediction writes —
including those produced by concurrent job invocations, and blind
inserts that bypass the application-level lookup-then-write — no two
DailyPrediction rows share a date, and this holds because the `date`
column of `daily_predictions` carries a storage-layer UNIQUE
constraint (`dailyPrediction_date_column.unique`), which the committing
insert consults. -/
theorem c2_storage_layer_uniqueness :
    dailyPrediction_date_column.unique = true ∧
    ∀ (ps0 : List DailyPrediction) (ops : List PredStoreOp),
      (predDates ps0).Nodup →
      (predDates (ops.foldl applyPredStoreOp ps0)).Nodup := by
  refine ⟨rfl, ?_⟩
  intro ps0 ops
  induction ops generalizing ps0 with
  | nil => intro h; exact h
  | cons op ops ih =>
    intro h
    rw [List.foldl_cons]
    exact ih (applyPredStoreOp ps0 op) (nodup_applyPredStoreOp op h)

/-- Witness for C2: a write sequence that inserts day 9 twice (the
second insert violating the constraint) and then updates day 9 still
leaves the table free of duplicate dates. -/
theorem c2_storage_layer_uniqueness_witness :
    (predDates ([] : List DailyPrediction)).Nodup ∧
    (predDates (wOps.foldl applyPredStoreOp [])).Nodup :=
  ⟨by decide, c2_storage_layer_uniqueness.2 [] wOps (by decide)⟩

/-- C3: when the target date's window holds no reading, the Aggregator
returns `none` (not an error) and the daily job returns with outcome
`SkippedNoData`, leaving the whole store — including any existing
DailyPrediction row for that date — untouched. -/
theorem c3_skip_when_no_data (svc : MLService) (db : DB) (c : Clock)
    (hempty : readingsInWindow db.readings (date_today c - 1) = []) :
    compute_daily_aggregates db (date_today c - 1) = none ∧
    run_daily_prediction svc db c = (db, RunOutcome.skippedNoData) := by
  have hnone : compute_daily_aggregates db (date_today c - 1) = none := by
    unfold compute_daily_aggregates
    rw [hempty]
    rfl
  refine ⟨hnone, ?_⟩
  unfold run_daily_prediction run_for_date
  rw [hnone]

/-- Witness for C3: a database whose only reading lies on day 8 and
which already holds a day-9 prediction row; the day-9 run skips and
changes nothing. -/
theorem c3_skip_when_no_data_witness :
    readingsInWindow wDBEmptyDay.readings (date_today wClock - 1) = [] ∧
    run_daily_prediction wSvc wDBEmptyDay wClock =
      (wDBEmptyDay, RunOutcome.skippedNoData) :=
  ⟨by decide, (c3_skip_when_no_data wSvc wDBEmptyDay wClock (by decide)).2⟩

/-- C4: on any date whose window is non-empty, the Aggregator returns
for each of the four parameters the arithmetic mean over exactly the
readings whose timestamp lies in the inclusive day window, together
with their count; and appending a reading outside the window changes
neither any mean nor the count. -/
theorem c4_aggregator_means (db : DB) (d : Int)
    (hne : readingsInWindow db.readings d ≠ []) :
    (∃ a, compute_daily_aggregates db d = some a ∧
      a.avg_ph * ((readingsInWindow db.readings d).length : ℚ) =
        ((readingsInWindow db.readings d).map (fun r => r.ph)).sum ∧
      a.avg_tds * ((readingsInWindow db.readings d).length : ℚ) =
        ((readingsInWindow db.readings d).map (fun r => r.tds)).sum ∧
      a.avg_turbidity * ((readingsInWindow db.readings d).length : ℚ) =
        ((readingsInWindow db.readings d).map (fun r => r.turbidity)).sum ∧
      a.avg_temperature * ((readingsInWindow db.readings d).length : ℚ) =
        ((readingsInWindow db.readings d).map (fun r => r.temperature)).sum ∧
      a.reading_count = (readingsInWindow db.readings d).length) ∧
    (∀ r : SensorReading, inWindow d r = false →
      compute_daily_aggregates { db with readings := db.readings ++ [r] } d =
        compute_daily_aggregates db d) := by
  have hlen : (readingsInWindow db.readings d).length ≠ 0 := by
    simpa [List.length_eq_zero] using hne
  have hq : ((readingsInWindow db.readings d).length : ℚ) ≠ 0 :=
    Nat.cast_ne_zero.mpr hlen
  constructor
  · have hc : compute_daily_aggregates db d = some
        { avg_ph := ((readingsInWindow db.readings d).map (fun r => r.ph)).sum /
            ((readingsInWindow db.readings d).length : ℚ)
          avg_tds := ((readingsInWindow db.readings d).map (fun r => r.tds)).sum /
            ((readingsInWindow db.readings d).length : ℚ)
          avg_turbidity := ((readingsInWindow db.readings d).map (fun r => r.turbidity)).sum /
            ((readingsInWindow db.readings d).length : ℚ)
          avg_temperature := ((readingsInWindow db.readings d).map (fun r => r.temperature)).sum /
            ((readingsInWindow db.readings d).length : ℚ)
          reading_count := (readingsInWindow db.readings d).length } := by
      unfold compute_daily_aggregates
      rw [if_neg hlen]
    refine ⟨_, hc, ?_, ?_, ?_, ?_, rfl⟩ <;> exact div_mul_cancel₀ _ hq
  · intro r hr
    have hw : readingsInWindow (db.readings ++ [r]) d =
        readingsInWindow db.readings d := by
      unfold readingsInWindow
      rw [List.filter_append]
      simp [hr]
    exact compute_daily_aggregates_congr d (by simpa using hw)

/-- Witness for C4 (Scenario A of the spec): three day-9 readings with
acidity 7.0, 7.2, 7.4 give a non-empty window, so the Aggregator
returns means over exactly those readings and count 3. -/
theorem c4_aggregator_means_witness :
    readingsInWindow wDBThree.readings 9 ≠ [] ∧
    ((∃ a, compute_daily_aggregates wDBThree 9 = some a ∧
      a.avg_ph * ((readingsInWindow wDBThree.readings 9).length : ℚ) =
        ((readingsInWindow wDBThree.readings 9).map (fun r => r.ph)).sum ∧
      a.avg_tds * ((readingsInWindow wDBThree.readings 9).length : ℚ) =
        ((readingsInWindow wDBThree.readings 9).map (fun r => r.tds)).sum ∧
      a.avg_turbidity * ((readingsInWindow wDBThree.readings 9).length : ℚ) =
        ((readingsInWindow wDBThree.readings 9).map (fun r => r.turbidity)).sum ∧
      a.avg_temperature * ((readingsInWindow wDBThree.readings 9).length : ℚ) =
        ((readingsInWindow wDBThree.readings 9).map (fun r => r.temperature)).sum ∧
      a.reading_count = (readingsInWindow wDBThree.readings 9).length) ∧
    (∀ r : SensorReading, inWindow 9 r = false →
      compute_daily_aggregates { wDBThree with readings := wDBThree.readings ++ [r] } 9 =
        compute_daily_aggregates wDBThree 9)) :=
  ⟨by decide, c4_aggregator_means wDBThree 9 (by decide)⟩

/-- C5: whenever the classification step raises — in particular the
artifact-not-loaded precondition violation, whose exact error the
second conjunct pins down — the daily job ends in the failed state
with the store unchanged (no new or modified DailyPrediction row), and
the job returns that outcome normally instead of propagating the
exception, so the scheduler survives to its next cycle. -/
theorem c5_classifier_failure_no_write (svc : MLService) (db : DB) (c : Clock)
    (a : Aggregates) (e : String)
    (hagg : compute_daily_aggregates db (date_today c - 1) = some a)
    (hfail : MLService.predict svc a.avg_ph a.avg_tds a.avg_turbidity
      a.avg_temperature = .error e) :
    run_daily_prediction svc db c = (db, RunOutcome.failed e) ∧
    (∀ p1 p2 p3 p4 : ℚ, svc.model = none →
      MLService.predict svc p1 p2 p3 p4 =
        .error "ML artifacts not loaded. Call load_artifacts() first.") := by
  constructor
  · simp only [run_daily_prediction, run_for_date, hagg, hfail]
  · intro p1 p2 p3 p4 hm
    simp only [MLService.predict, hm]

/-- Witness for C5: a service on which load_artifacts never ran, a
database with one day-9 reading; the day-9 run fails without touching
the store. -/
theorem c5_classifier_failure_no_write_witness :
    compute_daily_aggregates wDB (date_today wClock - 1) = some wAgg ∧
    run_daily_prediction wSvcNone wDB wClock =
      (wDB, RunOutcome.failed "ML artifacts not loaded. Call load_artifacts() first.") := by
  have hd : date_today wClock - 1 = 9 := by decide
  have hagg : compute_daily_aggregates wDB (date_today wClock - 1) = some wAgg := by
    rw [hd]
    norm_num [compute_daily_aggregates, readingsInWindow, inWindow, wDB, wReading,
      wAgg, startOfDay, endOfDay, microsPerDay]
  exact ⟨hagg,
    (c5_classifier_failure_no_write wSvcNone wDB wClock wAgg
      "ML artifacts not loaded. Call load_artifacts() first." hagg rfl).1⟩

/-- C7: when the loaded artifact exposes a probability estimate and —
as scikit-learn classifiers do — predicts a class of maximal
probability, the confidence the adapter returns equals the probability
mass the artifact assigns to the predicted label, and it lies in
[0, 1] whenever the artifact emits probabilities in [0, 1]; when the
artifact has no probability estimate, the confidence is absent
(`none`), not zero. -/
theorem c7_confidence_semantics (svc : MLService) (m : Artifact) (enc : LabelEncoder)
    (hm : svc.model = some m) (he : svc.label_encoder = some enc)
    (ph tds turbidity temperature : ℚ) (label : String)
    (hl : enc.classes.get? (m.predictEnc ph tds turbidity temperature) = some label) :
    (∀ (pf : ℚ → ℚ → ℚ → ℚ → List ℚ) (cMass : ℚ), m.proba = some pf →
      (pf ph tds turbidity temperature).get?
          (m.predictEnc ph tds turbidity temperature) = some cMass →
      (∀ q ∈ pf ph tds turbidity temperature, q ≤ cMass) →
      (∀ q ∈ pf ph tds turbidity temperature, 0 ≤ q ∧ q ≤ 1) →
      MLService.predict svc ph tds turbidity temperature = .ok (label, some cMass) ∧
        0 ≤ cMass ∧ cMass ≤ 1) ∧
    (m.proba = none →
      MLService.predict svc ph tds turbidity temperature = .ok (label, none)) := by
  constructor
  · intro pf cMass hpf hidx hmax hq
    have hmem : cMass ∈ pf ph tds turbidity temperature := List.get?_mem hidx
    have hlmax : listMax (pf ph tds turbidity temperature) = some cMass :=
      listMax_eq_of_max hmem hmax
    refine ⟨?_, (hq cMass hmem).1, (hq cMass hmem).2⟩
    simp only [MLService.predict, hm, he, hl, hpf, hlmax]
  · intro hnp
    simp only [MLService.predict, hm, he, hl, hnp]

/-- Witness for C7: the artifact `wArt` assigns probability 9/10 to
its predicted class 0 and the adapter returns exactly that confidence;
the probability-free artifact `wArtNP` yields an absent confidence. -/
theorem c7_confidence_semantics_witness :
    MLService.predict wSvc 7 350 3 25 = .ok ("Safe", some ((9 : ℚ)/10)) ∧
    0 ≤ (9 : ℚ)/10 ∧ (9 : ℚ)/10 ≤ 1 ∧
    MLService.predict wSvcNP 7 350 3 25 = .ok ("Safe", none) := by
  have hb : ∀ q ∈ [(9 : ℚ)/10, 1/10], q ≤ (9 : ℚ)/10 := by
    intro q hq
    rcases List.mem_cons.mp hq with h | h
    · rw [h]
    · rw [List.mem_singleton] at h
      rw [h]
      norm_num
  have hq : ∀ q ∈ [(9 : ℚ)/10, 1/10], 0 ≤ q ∧ q ≤ 1 := by
    intro q hq
    rcases List.mem_cons.mp hq with h | h
    · rw [h]; norm_num
    · rw [List.mem_singleton] at h
      rw [h]; norm_num
  obtain ⟨h1, h2, h3⟩ :=
    (c7_confidence_semantics wSvc wArt wEnc rfl rfl 7 350 3 25 "Safe" rfl).1
      (fun _ _ _ _ => [(9 : ℚ)/10, 1/10]) ((9 : ℚ)/10) rfl rfl hb hq
  exact ⟨h1, h2, h3,
    (c7_confidence_semantics wSvcNP wArtNP wEnc rfl rfl 7 350 3 25 "Safe" rfl).2 rfl⟩

/-- C10: the stored reading is built from exactly the four parameter
values of the payload; its timestamp is always the store clock at
write time, and a payload-supplied timestamp is ignored entirely, so
the ingestion path can never backdate a reading. -/
theorem c10_timestamp_assigned_by_store (db : DB) (r : SensorReadingCreate)
    (c : Clock) :
    (create_sensor_reading db r c).2 =
      { id := db.nextReadingId, ph := r.ph, tds := r.tds, turbidity := r.turbidity,
        temperature := r.temperature, timestamp := c.utcNow } ∧
    (∀ t : Int, create_sensor_reading db { r with timestamp := some t } c =
      create_sensor_reading db r c) ∧
    (create_sensor_reading db r c).1.readings =
      db.readings ++ [(create_sensor_reading db r c).2] :=
  ⟨rfl, fun _ => rfl, rfl⟩

/-- Counterexample for C8: the manual-trigger endpoint does not report
the run's completion state.  On the same database and clock, a run
with unloaded artifacts fails while a run with loaded artifacts
completes, yet `trigger_prediction_manually` answers with the
identical fixed success response in both cases (and its signature
admits no caller-supplied date at all). -/
theorem c8_counterexample :
    (run_daily_prediction wSvcNone wDB wClock).2 =
      RunOutcome.failed "ML artifacts not loaded. Call load_artifacts() first." ∧
    (run_daily_prediction wSvc wDB wClock).2 = RunOutcome.completed ∧
    (trigger_prediction_manually wSvcNone wDB wClock).2 =
      (trigger_prediction_manually wSvc wDB wClock).2 :=
  ⟨rfl, rfl, rfl⟩

/-- C8 as amended: the manual trigger reuses exactly the scheduler's
job function (same code path and same store effect), but it accepts no
caller-supplied date — it always targets yesterday of the local
calendar — and it returns one fixed success response that carries no
information about the run's completion state. -/
theorem c8_manual_trigger_same_code_path :
    (∀ svc db c, (trigger_prediction_manually svc db c).1 =
      (run_daily_prediction svc db c).1) ∧
    (∀ svc db c, (trigger_prediction_manually svc db c).2 =
      { status := 200, message := daily_trigger_success_message }) ∧
    (∀ svc db c, run_daily_prediction svc db c =
      run_for_date svc db (date_today c - 1) c.utcNow) :=
  ⟨fun _ _ _ => rfl, fun _ _ _ => rfl, fun _ _ _ => rfl⟩

/-- Counterexample for C9: the default target date does not use the
UTC reference.  At `c9clock` (23:30 UTC, local zone two hours ahead)
the local calendar date differs from the UTC date; the job's
"yesterday" equals the UTC day still in progress, and a reading
ingested at that very instant — whose stored timestamp is the UTC
clock — falls inside the window the job is about to aggregate. -/
theorem c9_counterexample :
    date_today c9clock ≠ utc_today c9clock ∧
    date_today c9clock - 1 = utc_today c9clock ∧
    (create_sensor_reading wDB wPayload c9clock).2.timestamp = c9clock.utcNow ∧
    inWindow (date_today c9clock - 1) (create_sensor_reading wDB wPayload c9clock).2 =
      true :=
  ⟨by decide, by decide, rfl, by decide⟩

/-- C9 as amended: stored reading timestamps come from the UTC clock,
and the Aggregator's window comparisons use that same reference; but
the default target date is yesterday of the local calendar
(date.today()), which coincides with the UTC-based yesterday exactly
when the local calendar date agrees with the UTC date at invocation
time. -/
theorem c9_window_utc_target_local (svc : MLService) (db : DB)
    (r : SensorReadingCreate) (c : Clock)
    (hagree : date_today c = utc_today c) :
    (create_sensor_reading db r c).2.timestamp = c.utcNow ∧
    run_daily_prediction svc db c = run_for_date svc db (utc_today c - 1) c.utcNow := by
  refine ⟨rfl, ?_⟩
  unfold run_daily_prediction
  rw [hagree]

/-- Witness for C9's amended statement at the offset-zero clock. -/
theorem c9_window_utc_target_local_witness :
    date_today wClock = utc_today wClock ∧
    run_daily_prediction wSvc wDB wClock =
      run_for_date wSvc wDB (utc_today wClock - 1) wClock.utcNow :=
  ⟨by decide, (c9_window_utc_target_local wSvc wDB wPayload wClock (by decide)).2⟩

/-- Counterexample for C6: nothing in the code makes a second trigger
wait or rejects it while a run for the same date is in flight.  In the
step-level model of `run_daily_prediction`, after the schedule
[m1, m2] both invocations are simultaneously executing (`running`)
against the same target date; continuing the full interleaving, both
proceed to the upsert, the first completes and the second hits the
UNIQUE constraint and ends failed — no waiting and no
ConcurrentRunRejected signal anywhere. -/
theorem c6_counterexample :
    (exec wSvc wClock wClock raceInit [Move.m1, Move.m2]).j1 = JobPhase.running ∧
    (exec wSvc wClock wClock raceInit [Move.m1, Move.m2]).j2 = JobPhase.running ∧
    (exec wSvc wClock wClock raceInit raceMoves).j1 =
      JobPhase.finished RunOutcome.completed ∧
    (exec wSvc wClock wClock raceInit raceMoves).j2 =
      JobPhase.finished
        (RunOutcome.failed "UNIQUE constraint failed: daily_predictions.date") :=
  ⟨rfl, rfl, rfl, rfl⟩

/-- C6 as amended: a trigger arriving while a run for the same date is
in flight proceeds concurrently — the code neither queues it nor
rejects it — and duplicate rows are prevented only by the
storage-layer UNIQUE constraint on the date column: under every
interleaving of two job invocations, the prediction table keeps
pairwise-distinct dates (a conflicting insert raises and that run ends
failed). -/
theorem c6_no_duplicates_under_any_interleaving (svc : MLService) (c1 c2 : Clock)
    (db0 : DB) (moves : List Move)
    (h : (predDates db0.predictions).Nodup) :
    (predDates ((exec svc c1 c2
      { db := db0, j1 := .notStarted, j2 := .notStarted } moves).db).predictions).Nodup :=
  exec_db_nodup svc c1 c2 moves _ h

/-- Witness for C6's amended statement: the full racing interleaving
on the concrete fixtures leaves exactly the one day-9 row. -/
theorem c6_no_duplicates_under_any_interleaving_witness :
    (predDates wDB.predictions).Nodup ∧
    (predDates ((exec wSvc wClock wClock
      { db := wDB, j1 := .notStarted, j2 := .notStarted } raceMoves).db).predictions).Nodup :=
  ⟨by decide,
   c6_no_duplicates_under_any_interleaving wSvc wClock wClock wDB raceMoves (by decide)⟩

/-- C1: running the daily job twice for the same target date over an
unchanged reading set leaves exactly one DailyPrediction row for that
date; the second run converges on the same row — the stored record
after the second run equals the record after the first with only the
recomputed-at stamp refreshed (update in place, no new row) — and the
reading count is overwritten with the window's latest count, not
summed. -/
theorem c1_daily_job_idempotent (svc : MLService) (db : DB) (c1 c2 : Clock)
    (db1 db2 : DB) (o2 : RunOutcome)
    (hnodup : (predDates db.predictions).Nodup)
    (hsame : date_today c2 = date_today c1)
    (h1 : run_daily_prediction svc db c1 = (db1, RunOutcome.completed))
    (h2 : run_daily_prediction svc db1 c2 = (db2, o2)) :
    o2 = RunOutcome.completed ∧
    (predDates db2.predictions).count (date_today c1 - 1) = 1 ∧
    db2.predictions.find? (fun p => p.date == date_today c1 - 1) =
      (db1.predictions.find? (fun p => p.date == date_today c1 - 1)).map
        (fun p => { p with created_at := c2.utcNow }) ∧
    (db2.predictions.find? (fun p => p.date == date_today c1 - 1)).map
        (fun p => p.reading_count) =
      some (readingsInWindow db.readings (date_today c1 - 1)).length ∧
    db2.readings = db.readings := by
  unfold run_daily_prediction at h1 h2
  rw [hsame] at h2
  obtain ⟨a, label, conf, rec1, hagg, hpred, hcre⟩ := run_for_date_completed h1
  obtain ⟨hre1, hfind1, hcount1, hrc1, hupd1⟩ := create_daily_prediction_ok hnodup hcre
  have hagg1 : compute_daily_aggregates db1 (date_today c1 - 1) = some a := by
    rw [@compute_daily_aggregates_congr db1 db (date_today c1 - 1) (by unfold readingsInWindow; rw [hre1])]
    exact hagg
  have hcre2 : create_daily_prediction db1 (date_today c1 - 1) a label conf c2.utcNow = .ok ({ db1 with predictions := replaceFirstByDate db1.predictions (date_today c1 - 1) (fun p => updateFields p a label conf c2.utcNow) }, updateFields rec1 a label conf c2.utcNow) := by
    unfold create_daily_prediction
    rw [hfind1]
  simp only [run_for_date, hagg1, hpred, hcre2] at h2
  injection h2 with hdb2 ho2
  have hL : db2.predictions.find? (fun p => p.date == date_today c1 - 1) =
      some (updateFields rec1 a label conf c2.utcNow) := by
    rw [← hdb2]
    exact find?_replaceFirstByDate (date_today c1 - 1)
      (fun p => updateFields p a label conf c2.utcNow) (fun p => rfl)
      db1.predictions rec1 hfind1
  refine ⟨ho2.symm, ?_, ?_, ?_, ?_⟩
  · rw [← hdb2]
    show (predDates (replaceFirstByDate db1.predictions (date_today c1 - 1)
      (fun p => updateFields p a label conf c2.utcNow))).count (date_today c1 - 1) = 1
    rw [predDates_replaceFirstByDate db1.predictions (date_today c1 - 1)
      (fun p => updateFields p a label conf c2.utcNow) (fun p => rfl)]
    exact hcount1
  · rw [hL, hfind1, hupd1 c2.utcNow]
    rfl
  · rw [hL]
    show some (updateFields rec1 a label conf c2.utcNow).reading_count = _
    show some a.reading_count = _
    rw [compute_daily_aggregates_count hagg]
  · rw [← hdb2]
    show db1.readings = db.readings
    exact hre1

/-- Witness for C1: on the concrete fixtures the first day-9 run
completes; running again completes as well and exactly one day-9 row
remains. -/
theorem c1_daily_job_idempotent_witness :
    (predDates wDB.predictions).Nodup ∧
    (run_daily_prediction wSvc (run_daily_prediction wSvc wDB wClock).1 wClock).2 =
      RunOutcome.completed ∧
    (predDates ((run_daily_prediction wSvc
      (run_daily_prediction wSvc wDB wClock).1 wClock).1).predictions).count
        (date_today wClock - 1) = 1 := by
  have h := c1_daily_job_idempotent wSvc wDB wClock wClock
    (run_daily_prediction wSvc wDB wClock).1
    (run_daily_prediction wSvc (run_daily_prediction wSvc wDB wClock).1 wClock).1
    (run_daily_prediction wSvc (run_daily_prediction wSvc wDB wClock).1 wClock).2
    (by decide) rfl rfl rfl
  exact ⟨by decide, h.1, h.2.1⟩
